import Mathlib

/-!
Shallow embedding of the studenthub backend (src/studenthub) for checking
the natural-language specification against the code.

The MongoDB collections (`db.users_v2`, `db.posts`) and the Python dict
`otp_store` are modelled as association lists; `find_one` is first-match
lookup, `update_one` updates the first matching entry, `insert_one`
appends with a store-assigned numeric id, and dict assignment/deletion
keep keys unique.  Wall-clock time (`datetime.utcnow()`) is passed in as
a `Nat` parameter; bcrypt and JWT are black-box capabilities bundled in
a `Crypto` record, and the OTP generator's output is a parameter.
-/

namespace StudentHub

/-- First-match lookup in an association list (models `dict[k]` /
`find_one({"_id": k})`). -/
def lookupKey {κ α : Type} [DecidableEq κ] : List (κ × α) → κ → Option α
  | [], _ => none
  | p :: rest, k => if p.1 = k then some p.2 else lookupKey rest k

/-- Remove every entry with the given key (models `del dict[k]` /
`delete_one`; dict keys are unique, so removing all matches is faithful). -/
def eraseKey {κ α : Type} [DecidableEq κ] : List (κ × α) → κ → List (κ × α)
  | [], _ => []
  | p :: rest, k => if p.1 = k then eraseKey rest k else p :: eraseKey rest k

/-- Dict assignment `dict[k] = v`: the key maps to `v` afterwards, and keys
stay unique. -/
def insertKey {κ α : Type} [DecidableEq κ] (l : List (κ × α)) (k : κ) (v : α) :
    List (κ × α) :=
  (k, v) :: eraseKey l k

/-- Apply `f` to the value of the first entry with the given key (models
MongoDB `update_one`, which updates a single matching document); a no-op
when the key is absent. -/
def updateKey {κ α : Type} [DecidableEq κ] : List (κ × α) → κ → (α → α) → List (κ × α)
  | [], _, _ => []
  | p :: rest, k, f =>
    if p.1 = k then (p.1, f p.2) :: rest else p :: updateKey rest k f

/-- The structured HTTP error taxonomy raised by the handlers. -/
inductive HErr where
  | conflict
  | notFound
  | invalidCode
  | expired
  | unauthorized
  | forbidden
  | uploadFailed
  | validationError
deriving Repr, DecidableEq

/-- A user document in `db.users_v2` (the `user_data` dict built in
`signup`). -/
structure UserRec where
  name : String
  bio : String
  email : String
  passwordHash : String
  profilePic : Option String
  isVerified : Bool
deriving Repr, DecidableEq

/-- One entry of `otp_store`: `{"otp": ..., "expiry": ..., "user_data": ...}`. -/
structure OtpRecord where
  otp : String
  expiry : Nat
  userData : UserRec
deriving Repr, DecidableEq

/-- Black-box crypto capabilities: `bcrypt.hashpw`, `bcrypt.checkpw`,
`jwt.encode` (over the subject email). -/
structure Crypto where
  hashpw : String → String
  checkpw : String → String → Bool
  sign : String → String

/-- The auth-side mutable state: the `users_v2` collection (with the
store's id counter) and the in-memory `otp_store`. -/
structure AuthState where
  users : List (Nat × UserRec)
  nextId : Nat
  otp_store : List (String × OtpRecord)
deriving Repr, DecidableEq

/-- `db.users_v2.find_one({"email": email})`. -/
def findUserByEmail (users : List (Nat × UserRec)) (email : String) :
    Option (Nat × UserRec) :=
  users.find? (fun p => p.2.email = email)

/-- OTP_EXPIRY_SECONDS = 300. -/
def OTP_EXPIRY_SECONDS : Nat := 300

/-- `remove_otp_after_expiry` (auth.py:58-62), the deferred reaper body as
it runs when the sleep elapses: `if email in otp_store: del otp_store[email]`.
It captures only the email, not the registration it was scheduled for. -/
def remove_otp_after_expiry (store : List (String × OtpRecord)) (email : String) :
    List (String × OtpRecord) :=
  if (lookupKey store email).isSome then eraseKey store email else store

/-- `signup` (auth.py:64-95).  The fresh OTP and the current time are
parameters; on success returns the expiry timestamp (`expires_at`). -/
def signup (c : Crypto) (s : AuthState)
    (name bio email password otp : String) (now : Nat) :
    AuthState × Except HErr Nat :=
  if (findUserByEmail s.users email).isSome || (lookupKey s.otp_store email).isSome then
    (s, Except.error HErr.conflict)
  else
    let user_data : UserRec :=
      { name := name, bio := bio, email := email,
        passwordHash := c.hashpw password, profilePic := none, isVerified := false }
    let expiry_time := now + OTP_EXPIRY_SECONDS
    ({ s with otp_store := insertKey s.otp_store email ⟨otp, expiry_time, user_data⟩ },
     Except.ok expiry_time)

/-- `verify_email` (auth.py:97-113).  On success inserts the draft payload
into `users_v2` (store-assigned id) and deletes the pending entry,
returning the new user's id (`user_id`). -/
def verify_email (s : AuthState) (email otp : String) (now : Nat) :
    AuthState × Except HErr Nat :=
  match lookupKey s.otp_store email with
  | none => (s, Except.error HErr.notFound)
  | some record =>
    if record.otp ≠ otp then (s, Except.error HErr.invalidCode)
    else if record.expiry < now then
      ({ s with otp_store := eraseKey s.otp_store email }, Except.error HErr.expired)
    else
      ({ users := s.users ++ [(s.nextId, record.userData)],
         nextId := s.nextId + 1,
         otp_store := eraseKey s.otp_store email },
       Except.ok s.nextId)

/-- The user summary the handlers return (`UserOut`). -/
structure UserOut where
  id : Nat
  name : String
  bio : String
  email : String
  isVerified : Bool
  profilePic : Option String
deriving Repr, DecidableEq

/-- Build the `UserOut` payload from a stored document. -/
def mkUserOut (uid : Nat) (u : UserRec) : UserOut :=
  ⟨uid, u.name, u.bio, u.email, u.isVerified, u.profilePic⟩

/-- The `login` response body: bearer token plus user summary. -/
structure LoginOut where
  access_token : String
  user : UserOut
deriving Repr, DecidableEq

/-- `login` (auth.py:116-141): find by email, check the bcrypt digest, sign
a token over the email subject.  The verification flag is only copied into
the response, never tested. -/
def login (c : Crypto) (users : List (Nat × UserRec)) (email password : String) :
    Except HErr LoginOut :=
  match findUserByEmail users email with
  | none => Except.error HErr.unauthorized
  | some (uid, u) =>
    if c.checkpw u.passwordHash password then
      Except.ok ⟨c.sign u.email, mkUserOut uid u⟩
    else
      Except.error HErr.unauthorized

/-- An uploaded multipart file: only its name and content type matter to
the handlers before the bytes are forwarded. -/
structure FileUpload where
  filename : String
  content_type : String
deriving Repr, DecidableEq

/-- Python truthiness of an `Optional[str]` form field: `None` and `""`
are falsy. -/
def truthy : Option String → Bool
  | none => false
  | some s => s ≠ ""

/-- The `update_data` dict built by `update_profile`; a `some` field means
the key is present.  `profilePic` holds `resp.json().get("secure_url")`,
which can itself be null. -/
structure UpdateData where
  name : Option String
  bio : Option String
  profilePic : Option (Option String)
deriving Repr, DecidableEq

/-- `update_data` is non-empty (`if update_data:`). -/
def hasUpdates (d : UpdateData) : Bool :=
  d.name.isSome || d.bio.isSome || d.profilePic.isSome

/-- Apply a `$set` of the present `update_data` keys to a user document. -/
def applyUpdate (u : UserRec) (d : UpdateData) : UserRec :=
  { u with
    name := d.name.getD u.name,
    bio := d.bio.getD u.bio,
    profilePic := d.profilePic.getD u.profilePic }

/-- The tail of `update_profile` after `update_data` is assembled: the
conditional `update_one`, the re-fetch, and the response build.  A `none`
response models the unhandled exception when the re-fetch finds nothing. -/
def finishProfileUpdate (users : List (Nat × UserRec)) (uid : Nat)
    (d : UpdateData) (net : Bool) :
    List (Nat × UserRec) × Option (Except HErr UserOut) × Bool :=
  let users2 := if hasUpdates d then updateKey users uid (fun u => applyUpdate u d) else users
  (users2, (lookupKey users2 uid).map (fun u => Except.ok (mkUserOut uid u)), net)

/-- `update_profile` (auth.py:155-191).  `uid` is the authenticated user's
id; `upload` is the oracle for the Cloudinary call (`error` = request
failure, `ok` = the parsed `secure_url`, possibly absent).  The final
`Bool` records whether the network call to the image host was made. -/
def update_profile (users : List (Nat × UserRec)) (uid : Nat)
    (name bio : Option String) (file : Option FileUpload)
    (upload : Except Unit (Option String)) :
    List (Nat × UserRec) × Option (Except HErr UserOut) × Bool :=
  let d0 : UpdateData :=
    ⟨if truthy name then name else none, if truthy bio then bio else none, none⟩
  match file with
  | some f =>
    if f.content_type ≠ "image/jpeg" ∧ f.content_type ≠ "image/png" then
      (users, some (Except.error HErr.validationError), false)
    else
      match upload with
      | Except.error _ => (users, some (Except.error HErr.uploadFailed), true)
      | Except.ok url => finishProfileUpdate users uid { d0 with profilePic := some url } true
  | none => finishProfileUpdate users uid d0 false

/-- `remove_profile_pic` (auth.py:193-204): unconditionally `$set`s the
picture field to null, then re-fetches. -/
def remove_profile_pic (users : List (Nat × UserRec)) (uid : Nat) :
    List (Nat × UserRec) × Option (Except HErr UserOut) :=
  let users2 := updateKey users uid (fun u => { u with profilePic := none })
  (users2, (lookupKey users2 uid).map (fun u => Except.ok (mkUserOut uid u)))

/-- A comment document (models/post.py `Comment`). -/
structure CommentRec where
  user_id : String
  user_name : String
  text : String
  created_at : Nat
deriving Repr, DecidableEq, Inhabited

/-- A post document in `db.posts` (the `post_doc` dict built in
`create_post`; `likes` defaults to the empty list, matching the
`"likes" not in post` guard). -/
structure PostRec where
  user_id : String
  user_name : String
  user_profilePic : Option String
  content : String
  image : Option String
  created_at : Nat
  comments : List CommentRec
  likes : List String
deriving Repr, DecidableEq

/-- The `db.posts` collection, keyed by the string form of the ObjectId. -/
abbrev PostsStore : Type := List (String × PostRec)

/-- The `PostOut` response body of `add_comment`. -/
structure PostOut where
  id : String
  user_id : String
  user_name : String
  user_profilePic : Option String
  content : String
  image : Option String
  created_at : Nat
  comments : List CommentRec
deriving Repr, DecidableEq

/-- MongoDB `$addToSet` on the `likes` field: append the id unless it is
already a member. -/
def addToSet (user_id : String) (p : PostRec) : PostRec :=
  if user_id ∈ p.likes then p else { p with likes := p.likes ++ [user_id] }

/-- MongoDB `$pull` on the `likes` field: remove every occurrence of the
id (a no-op when absent). -/
def pullLike (user_id : String) (p : PostRec) : PostRec :=
  { p with likes := p.likes.filter (fun x => x ≠ user_id) }

/-- `like_post` (posts.py:21-31): 404 when the post is absent, early "Already
liked" return, otherwise `$addToSet` of the caller's id. -/
def like_post (posts : PostsStore) (post_id user_id : String) :
    PostsStore × Except HErr String :=
  match lookupKey posts post_id with
  | none => (posts, Except.error HErr.notFound)
  | some post =>
    if user_id ∈ post.likes then (posts, Except.ok "Already liked")
    else (updateKey posts post_id (addToSet user_id), Except.ok "Post liked")

/-- `unlike_post` (posts.py:33-39): 404 when the post is absent, otherwise
`$pull` of the caller's id. -/
def unlike_post (posts : PostsStore) (post_id user_id : String) :
    PostsStore × Except HErr String :=
  match lookupKey posts post_id with
  | none => (posts, Except.error HErr.notFound)
  | some _ => (updateKey posts post_id (pullLike user_id), Except.ok "Post unliked")

/-- `delete_post` (posts.py:42-50). -/
def delete_post (posts : PostsStore) (post_id user_id : String) :
    PostsStore × Except HErr String :=
  match lookupKey posts post_id with
  | none => (posts, Except.error HErr.notFound)
  | some post =>
    if post.user_id ≠ user_id then (posts, Except.error HErr.forbidden)
    else (eraseKey posts post_id, Except.ok "Post deleted successfully")

/-- `create_post` (posts.py:52-90), with the image step already resolved to
an optional URL; snapshots the author's name and picture. -/
def create_post (posts : PostsStore) (pid : String) (author_id author_name : String)
    (author_pic : Option String) (content : String) (image : Option String) (now : Nat) :
    PostsStore × PostOut :=
  let post_doc : PostRec :=
    { user_id := author_id, user_name := author_name, user_profilePic := author_pic,
      content := content, image := image, created_at := now, comments := [], likes := [] }
  (posts ++ [(pid, post_doc)],
   ⟨pid, author_id, author_name, author_pic, content, image, now, []⟩)

/-- `add_comment` (posts.py:118-140): an unconditional `$push` (a silent
no-op when the post id is absent) followed by a re-fetch; building the
response from an absent post raises an unhandled exception, modelled as a
`none` response (no structured `HErr` is produced on that path). -/
def add_comment (posts : PostsStore) (post_id user_id user_name text : String)
    (now : Nat) : PostsStore × Option (Except HErr PostOut) :=
  let comment : CommentRec := ⟨user_id, user_name, text, now⟩
  let posts2 := updateKey posts post_id (fun p => { p with comments := p.comments ++ [comment] })
  match lookupKey posts2 post_id with
  | none => (posts2, none)
  | some post =>
    (posts2,
     some (Except.ok ⟨post_id, post.user_id, post.user_name, post.user_profilePic,
                      post.content, post.image, post.created_at, post.comments⟩))

/-- `delete_comment` (posts.py:143-156): 404 on absent post or out-of-bounds
index, 403 when the caller is not the comment's author, otherwise a
positional `pop` written back with `$set`. -/
def delete_comment (posts : PostsStore) (post_id : String) (comment_index : Int)
    (user_id : String) : PostsStore × Except HErr String :=
  match lookupKey posts post_id with
  | none => (posts, Except.error HErr.notFound)
  | some post =>
    if comment_index < 0 ∨ (post.comments.length : Int) ≤ comment_index then
      (posts, Except.error HErr.notFound)
    else
      let i := comment_index.toNat
      if (post.comments.getD i default).user_id ≠ user_id then
        (posts, Except.error HErr.forbidden)
      else
        (updateKey posts post_id (fun p => { p with comments := post.comments.eraseIdx i }),
         Except.ok "Comment deleted successfully")

/-- The whole mutable state of the process: auth state plus the posts
collection. -/
structure SystemState where
  auth : AuthState
  posts : PostsStore
deriving Repr, DecidableEq

/-- One client-visible operation of the system; parameters carry the
request data together with the resolved environment inputs (current time,
fresh OTP, upload oracle).  Caller identity on the posts endpoints is the
numeric user id, rendered to the string form stored in post documents. -/
inductive Event where
  | signupEv (name bio email password otp : String) (now : Nat)
  | verifyEv (email otp : String) (now : Nat)
  | reapEv (email : String)
  | loginEv (email password : String)
  | profileEv (uid : Nat) (name bio : Option String) (file : Option FileUpload)
      (upload : Except Unit (Option String))
  | removePicEv (uid : Nat)
  | createPostEv (pid : String) (uid : Nat) (content : String) (image : Option String) (now : Nat)
  | likeEv (pid : String) (uid : Nat)
  | unlikeEv (pid : String) (uid : Nat)
  | addCommentEv (pid : String) (uid : Nat) (text : String) (now : Nat)
  | deleteCommentEv (pid : String) (idx : Int) (uid : Nat)
  | deletePostEv (pid : String) (uid : Nat)

/-- The state transition of one operation (responses dropped).  Posts
endpoints never touch `users_v2` or `otp_store`; `create_post` snapshots
the author document when it resolves. -/
def step (c : Crypto) (s : SystemState) (e : Event) : SystemState :=
  match e with
  | .signupEv name bio email password otp now =>
    { s with auth := (signup c s.auth name bio email password otp now).1 }
  | .verifyEv email otp now =>
    { s with auth := (verify_email s.auth email otp now).1 }
  | .reapEv email =>
    { s with auth :=
      { s.auth with otp_store := remove_otp_after_expiry s.auth.otp_store email } }
  | .loginEv _ _ => s
  | .profileEv uid name bio file upload =>
    { s with auth :=
      { s.auth with users := (update_profile s.auth.users uid name bio file upload).1 } }
  | .removePicEv uid =>
    { s with auth := { s.auth with users := (remove_profile_pic s.auth.users uid).1 } }
  | .createPostEv pid uid content image now =>
    match lookupKey s.auth.users uid with
    | none => s
    | some u =>
      { s with posts :=
        (create_post s.posts pid (toString uid) u.name u.profilePic content image now).1 }
  | .likeEv pid uid => { s with posts := (like_post s.posts pid (toString uid)).1 }
  | .unlikeEv pid uid => { s with posts := (unlike_post s.posts pid (toString uid)).1 }
  | .addCommentEv pid uid text now =>
    match lookupKey s.auth.users uid with
    | none => s
    | some u =>
      { s with posts := (add_comment s.posts pid (toString uid) u.name text now).1 }
  | .deleteCommentEv pid idx uid =>
    { s with posts := (delete_comment s.posts pid idx (toString uid)).1 }
  | .deletePostEv pid uid =>
    { s with posts := (delete_post s.posts pid (toString uid)).1 }

/-- Run a sequence of operations from a starting state. -/
def run (c : Crypto) (s : SystemState) : List Event → SystemState
  | [] => s
  | e :: es => run c (step c s e) es

/-- The state of a freshly started process: empty store, empty `otp_store`. -/
def initState : SystemState := ⟨⟨[], 0, []⟩, []⟩

/-- Every committed user carries `isVerified = false`. -/
def allUnverified (s : SystemState) : Bool :=
  s.auth.users.all (fun p => !p.2.isVerified)

/-- Both committed users and pending drafts carry a false verification
flag (the strengthened invariant behind `allUnverified`). -/
def InvS (s : SystemState) : Prop :=
  (∀ p ∈ s.auth.users, p.2.isVerified = false) ∧
  (∀ p ∈ s.auth.otp_store, p.2.userData.isVerified = false)

/-! ### Concrete instances used to exercise the model -/

/-- A trivially computable instantiation of the black-box crypto
capabilities, for evaluating the model on concrete inputs. -/
def cryptoId : Crypto :=
  ⟨fun p => p, fun digest p => digest == p, fun s => s⟩

/-- A concrete draft user payload. -/
def wUser : UserRec := ⟨"Alice", "hi", "a@x.com", "pw", none, false⟩

/-- An auth state holding one pending registration with OTP `123456`
expiring at time 300. -/
def wState : AuthState := ⟨[], 0, [("a@x.com", ⟨"123456", 300, wUser⟩)]⟩

/-- A credential store holding the single committed (and unverified)
user `wUser`. -/
def wUsers : List (Nat × UserRec) := [(0, wUser)]

/-- The state after a successful first `signup` from the empty state. -/
def wSignedUp : AuthState :=
  (signup cryptoId ⟨[], 0, []⟩ "Alice" "hi" "a@x.com" "pw" "111111" 0).1

/-- A concrete post with one like (by user `7`) and two comments, the
first authored by user `1` and the second by user `2`. -/
def wPost : PostRec :=
  { user_id := "1", user_name := "Alice", user_profilePic := none,
    content := "hello", image := none, created_at := 10,
    comments := [⟨"1", "Alice", "first", 11⟩, ⟨"2", "Bob", "second", 12⟩],
    likes := ["7"] }

/-- A posts collection holding only `wPost` under id `p1`. -/
def wPosts : PostsStore := [("p1", wPost)]

/-- C1 failing trace, step 1: `signup` for `a@x.com` at time 0 (OTP
`111111`, expiry 300); the deferred reaper for this registration is now
scheduled. -/
def c1S1 : AuthState :=
  (signup cryptoId ⟨[], 0, []⟩ "Alice" "hi" "a@x.com" "pw" "111111" 0).1

/-- C1 failing trace, step 2: `verify_email` at time 301 finds the entry
expired and removes it (no user is committed). -/
def c1S2 : AuthState := (verify_email c1S1 "a@x.com" "111111" 301).1

/-- C1 failing trace, step 3: a second `signup` for the same email at time
302 succeeds and installs a fresh registration (OTP `222222`, expiry 602). -/
def c1S3 : AuthState :=
  (signup cryptoId c1S2 "Alice" "hi" "a@x.com" "pw" "222222" 302).1

/-- The registration instance the first signup's reaper was scheduled
for. -/
def c1Rec1 : OtpRecord := ⟨"111111", 300, ⟨"Alice", "hi", "a@x.com", "pw", none, false⟩⟩

/-- The superseding registration instance installed by the second
signup. -/
def c1Rec2 : OtpRecord := ⟨"222222", 602, ⟨"Alice", "hi", "a@x.com", "pw", none, false⟩⟩

/-! ### Association-list lemmas -/

theorem lookupKey_eraseKey_self {κ α : Type} [DecidableEq κ] (l : List (κ × α)) (k : κ) :
    lookupKey (eraseKey l k) k = none := by
  induction l with
  | nil => rfl
  | cons p rest ih =>
    by_cases h : p.1 = k
    · simpa [eraseKey, h] using ih
    · simpa [eraseKey, lookupKey, h] using ih

theorem eraseKey_of_lookup_none {κ α : Type} [DecidableEq κ] {l : List (κ × α)} {k : κ}
    (h : lookupKey l k = none) : eraseKey l k = l := by
  induction l with
  | nil => rfl
  | cons p rest ih =>
    by_cases hp : p.1 = k
    · simp [lookupKey, hp] at h
    · simp only [lookupKey, hp, if_neg hp] at h
      simp [eraseKey, hp, ih h]

theorem lookupKey_insertKey_self {κ α : Type} [DecidableEq κ] (l : List (κ × α))
    (k : κ) (v : α) : lookupKey (insertKey l k v) k = some v := by
  simp [insertKey, lookupKey]

theorem updateKey_of_lookup_none {κ α : Type} [DecidableEq κ] {l : List (κ × α)} {k : κ}
    (f : α → α) (h : lookupKey l k = none) : updateKey l k f = l := by
  induction l with
  | nil => rfl
  | cons p rest ih =>
    by_cases hp : p.1 = k
    · simp [lookupKey, hp] at h
    · simp only [lookupKey, hp, if_neg hp] at h
      simp [updateKey, hp, ih h]

theorem lookupKey_updateKey_self {κ α : Type} [DecidableEq κ] (l : List (κ × α))
    (k : κ) (f : α → α) :
    lookupKey (updateKey l k f) k = (lookupKey l k).map f := by
  induction l with
  | nil => rfl
  | cons p rest ih =>
    by_cases hp : p.1 = k
    · simp [updateKey, lookupKey, hp]
    · simpa [updateKey, lookupKey, hp] using ih

theorem lookupKey_updateKey_ne {κ α : Type} [DecidableEq κ] (l : List (κ × α))
    {k k' : κ} (f : α → α) (h : k' ≠ k) :
    lookupKey (updateKey l k f) k' = lookupKey l k' := by
  induction l with
  | nil => rfl
  | cons p rest ih =>
    by_cases hp : p.1 = k
    · simp [updateKey, lookupKey, hp, Ne.symm h]
    · by_cases hq : p.1 = k'
      · simp [updateKey, lookupKey, hp, hq, h]
      · simpa [updateKey, lookupKey, hp, hq] using ih

theorem updateKey_eq_self {κ α : Type} [DecidableEq κ] {l : List (κ × α)} {k : κ}
    {f : α → α} {v : α} (h : lookupKey l k = some v) (hf : f v = v) :
    updateKey l k f = l := by
  induction l with
  | nil => simp [lookupKey] at h
  | cons p rest ih =>
    by_cases hp : p.1 = k
    · have h2 : p.2 = v := by simpa [lookupKey, hp] using h
      subst h2
      subst hp
      simp [updateKey, hf, Prod.mk.eta]
    · simp only [lookupKey, hp, if_neg hp] at h
      simp [updateKey, hp, ih h]

theorem updateKey_updateKey {κ α : Type} [DecidableEq κ] (l : List (κ × α))
    (k : κ) (f g : α → α) :
    updateKey (updateKey l k f) k g = updateKey l k (fun v => g (f v)) := by
  induction l with
  | nil => rfl
  | cons p rest ih =>
    by_cases hp : p.1 = k
    · simp [updateKey, hp]
    · simp [updateKey, hp, ih]

theorem mem_updateKey_of_pred {κ α : Type} [DecidableEq κ] {l : List (κ × α)} {k : κ}
    {f : α → α} {P : κ × α → Prop}
    (hl : ∀ q ∈ l, P q) (hf : ∀ a v, P (a, v) → P (a, f v)) :
    ∀ q ∈ updateKey l k f, P q := by
  induction l with
  | nil => intro q hq; simp [updateKey] at hq
  | cons p rest ih =>
    intro q hq
    by_cases hp : p.1 = k
    · simp only [updateKey, if_pos hp, List.mem_cons] at hq
      rcases hq with hq | hq
      · subst hq; exact hf p.1 p.2 (hl p (by simp))
      · exact hl q (by simp [hq])
    · simp only [updateKey, if_neg hp, List.mem_cons] at hq
      rcases hq with hq | hq
      · subst hq; exact hl q (by simp)
      · exact ih (fun r hr => hl r (by simp [hr])) q hq

theorem mem_eraseKey {κ α : Type} [DecidableEq κ] {l : List (κ × α)} {k : κ}
    {q : κ × α} (hq : q ∈ eraseKey l k) : q ∈ l := by
  induction l with
  | nil => simp [eraseKey] at hq
  | cons p rest ih =>
    by_cases hp : p.1 = k
    · simp only [eraseKey, if_pos hp] at hq
      exact List.mem_cons_of_mem _ (ih hq)
    · simp only [eraseKey, if_neg hp, List.mem_cons] at hq
      rcases hq with hq | hq
      · simp [hq]
      · exact List.mem_cons_of_mem _ (ih hq)

theorem lookupKey_mem {κ α : Type} [DecidableEq κ] {l : List (κ × α)} {k : κ} {v : α}
    (h : lookupKey l k = some v) : (k, v) ∈ l := by
  induction l with
  | nil => simp [lookupKey] at h
  | cons p rest ih =>
    by_cases hp : p.1 = k
    · simp only [lookupKey, if_pos hp, Option.some.injEq] at h
      have : p = (k, v) := by
        cases p; simp_all
      simp [this]
    · simp only [lookupKey, if_neg hp] at h
      exact List.mem_cons_of_mem _ (ih h)

/-! ### Shape lemmas for the profile handlers -/

theorem finishProfileUpdate_fst (users : List (Nat × UserRec)) (uid : Nat)
    (d : UpdateData) (net : Bool) :
    (finishProfileUpdate users uid d net).1 =
      if hasUpdates d then updateKey users uid (fun v => applyUpdate v d) else users := rfl

theorem remove_profile_pic_fst (users : List (Nat × UserRec)) (uid : Nat) :
    (remove_profile_pic users uid).1
      = updateKey users uid (fun u => { u with profilePic := none }) := rfl

theorem update_profile_users_shape (users : List (Nat × UserRec)) (uid : Nat)
    (name bio : Option String) (file : Option FileUpload)
    (upload : Except Unit (Option String)) :
    ∃ d : UpdateData,
      ((update_profile users uid name bio file upload).1 = users ∨
       (update_profile users uid name bio file upload).1
          = updateKey users uid (fun v => applyUpdate v d))
    ∧ (name = none → d.name = none)
    ∧ (bio = none → d.bio = none)
    ∧ (file = none → d.profilePic = none) := by
  cases file with
  | none =>
    refine ⟨⟨if truthy name then name else none, if truthy bio then bio else none, none⟩,
      ?_, ?_, ?_, fun _ => rfl⟩
    · have hfst : (update_profile users uid name bio none upload).1
          = (finishProfileUpdate users uid
              ⟨if truthy name then name else none, if truthy bio then bio else none, none⟩
              false).1 := rfl
      rw [hfst, finishProfileUpdate_fst]
      by_cases h : hasUpdates
          ⟨if truthy name then name else none, if truthy bio then bio else none, none⟩
      · right; rw [if_pos h]
      · left; rw [if_neg h]
    · intro hn; subst hn; rfl
    · intro hb; subst hb; rfl
  | some f =>
    by_cases hct : f.content_type ≠ "image/jpeg" ∧ f.content_type ≠ "image/png"
    · refine ⟨⟨none, none, none⟩, Or.inl ?_, fun _ => rfl, fun _ => rfl, fun _ => rfl⟩
      simp [update_profile, hct]
    · cases upload with
      | error e =>
        refine ⟨⟨none, none, none⟩, Or.inl ?_, fun _ => rfl, fun _ => rfl, fun _ => rfl⟩
        simp [update_profile, hct]
      | ok url =>
        refine ⟨⟨if truthy name then name else none, if truthy bio then bio else none,
          some url⟩, ?_, ?_, ?_, ?_⟩
        · have hfst : (update_profile users uid name bio (some f) (Except.ok url)).1
              = (finishProfileUpdate users uid
                  ⟨if truthy name then name else none, if truthy bio then bio else none,
                   some url⟩ true).1 := by
            simp [update_profile, hct]
          rw [hfst, finishProfileUpdate_fst]
          by_cases h : hasUpdates
              ⟨if truthy name then name else none, if truthy bio then bio else none, some url⟩
          · right; rw [if_pos h]
          · left; rw [if_neg h]
        · intro hn; subst hn; rfl
        · intro hb; subst hb; rfl
        · intro hf; exact absurd hf (by simp)

/-! ### Claim theorems -/

/-- C2: verifying a pending registration with the correct code strictly
before expiry succeeds exactly once: the call returns the committed user's
store-assigned id, appends the draft payload to the credential store,
removes the pending entry, and every subsequent verify for that email
fails `NotFound` while leaving the state unchanged. -/
theorem C2_verify_success_exactly_once (s : AuthState) (email otp : String)
    (now : Nat) (r : OtpRecord)
    (hr : lookupKey s.otp_store email = some r)
    (hotp : r.otp = otp) (htime : now < r.expiry) :
    (verify_email s email otp now).2 = Except.ok s.nextId
  ∧ (verify_email s email otp now).1.users = s.users ++ [(s.nextId, r.userData)]
  ∧ lookupKey (verify_email s email otp now).1.otp_store email = none
  ∧ ∀ otp2 now2,
      verify_email (verify_email s email otp now).1 email otp2 now2
        = ((verify_email s email otp now).1, Except.error HErr.notFound) := by
  have hstep : verify_email s email otp now =
      ({ users := s.users ++ [(s.nextId, r.userData)], nextId := s.nextId + 1,
         otp_store := eraseKey s.otp_store email }, Except.ok s.nextId) := by
    unfold verify_email
    rw [hr]
    simp [hotp, lt_asymm htime]
  refine ⟨by rw [hstep], by rw [hstep], ?_, ?_⟩
  · rw [hstep]; exact lookupKey_eraseKey_self _ _
  · intro otp2 now2
    rw [hstep]
    simp [verify_email, lookupKey_eraseKey_self]

/-- C2 witness: the single pending registration of `wState` verifies
successfully at time 0 and a second verify fails `NotFound`. -/
theorem C2_verify_success_exactly_once_witness :
    (verify_email wState "a@x.com" "123456" 0).2 = Except.ok wState.nextId
  ∧ (verify_email wState "a@x.com" "123456" 0).1.users
      = wState.users ++ [(wState.nextId, wUser)]
  ∧ lookupKey (verify_email wState "a@x.com" "123456" 0).1.otp_store "a@x.com" = none
  ∧ verify_email (verify_email wState "a@x.com" "123456" 0).1 "a@x.com" "123456" 100
      = ((verify_email wState "a@x.com" "123456" 0).1, Except.error HErr.notFound) :=
  have h := C2_verify_success_exactly_once wState "a@x.com" "123456" 0
    ⟨"123456", 300, wUser⟩ (by decide) rfl (by decide)
  ⟨h.1, h.2.1, h.2.2.1, h.2.2.2 "123456" 100⟩

/-- C3 counterexample: with the correct code at a current time exactly
equal to the expiry timestamp, `verify_email` succeeds instead of failing
`Expired` (the code uses a strict `expiry < now` comparison). -/
theorem C3_boundary_counterexample :
    (verify_email wState "a@x.com" "123456" 300).2 = Except.ok 0
  ∧ (verify_email wState "a@x.com" "123456" 300).2 ≠ Except.error HErr.expired := by
  refine ⟨rfl, ?_⟩
  intro h
  rw [show (verify_email wState "a@x.com" "123456" 300).2 = Except.ok 0 from rfl] at h
  exact Except.noConfusion h

/-- C3 (amended): verifying with the correct code at a current time
strictly greater than the expiry fails `Expired`, and as a side effect the
pending entry is removed from the table. -/
theorem C3_expired_removes_entry (s : AuthState) (email otp : String)
    (now : Nat) (r : OtpRecord)
    (hr : lookupKey s.otp_store email = some r)
    (hotp : r.otp = otp) (htime : r.expiry < now) :
    verify_email s email otp now
      = ({ s with otp_store := eraseKey s.otp_store email }, Except.error HErr.expired)
  ∧ lookupKey (verify_email s email otp now).1.otp_store email = none := by
  have hstep : verify_email s email otp now
      = ({ s with otp_store := eraseKey s.otp_store email }, Except.error HErr.expired) := by
    unfold verify_email
    rw [hr]
    simp [hotp, htime]
  exact ⟨hstep, by rw [hstep]; exact lookupKey_eraseKey_self _ _⟩

/-- C3 witness: at time 301 the entry of `wState` (expiry 300) is reported
`Expired` and removed. -/
theorem C3_expired_removes_entry_witness :
    verify_email wState "a@x.com" "123456" 301
      = ({ wState with otp_store := eraseKey wState.otp_store "a@x.com" },
         Except.error HErr.expired)
  ∧ lookupKey (verify_email wState "a@x.com" "123456" 301).1.otp_store "a@x.com" = none :=
  C3_expired_removes_entry wState "a@x.com" "123456" 301 ⟨"123456", 300, wUser⟩
    (by decide) rfl (by decide)

/-- C4: signup fails `Conflict` and leaves the whole auth state (pending
table and credential store) unchanged whenever the email already has a
pending registration or a committed user; in particular a second signup
for the same email after a successful first one fails `Conflict`. -/
theorem C4_signup_conflict (c : Crypto) (s : AuthState)
    (name bio email password otp name2 bio2 password2 otp2 : String)
    (now now2 : Nat) :
    (((findUserByEmail s.users email).isSome || (lookupKey s.otp_store email).isSome) = true →
        signup c s name bio email password otp now = (s, Except.error HErr.conflict))
  ∧ ∀ s1 t1, signup c s name bio email password otp now = (s1, Except.ok t1) →
        signup c s1 name2 bio2 email password2 otp2 now2
          = (s1, Except.error HErr.conflict) := by
  constructor
  · intro h
    simp [signup, h]
  · intro s1 t1 h1
    by_cases hc : ((findUserByEmail s.users email).isSome
        || (lookupKey s.otp_store email).isSome) = true
    · simp [signup, hc] at h1
    · rw [Bool.not_eq_true] at hc
      simp only [signup, hc, Bool.false_eq_true, if_false, Prod.mk.injEq,
        Except.ok.injEq] at h1
      obtain ⟨hs1, ht1⟩ := h1
      subst hs1
      simp [signup, lookupKey_insertKey_self]

/-- C4 witness: a signup for the pending email of `wState` conflicts, and
a signup immediately repeated after a successful one conflicts. -/
theorem C4_signup_conflict_witness :
    signup cryptoId wState "Bob" "x" "a@x.com" "pw2" "999999" 1
      = (wState, Except.error HErr.conflict)
  ∧ signup cryptoId wSignedUp "Bob" "x" "a@x.com" "pw2" "999999" 1
      = (wSignedUp, Except.error HErr.conflict) :=
  ⟨(C4_signup_conflict cryptoId wState "Bob" "x" "a@x.com" "pw2" "999999"
      "Bob" "x" "pw2" "999999" 1 1).1 (by decide),
   (C4_signup_conflict cryptoId ⟨[], 0, []⟩ "Alice" "hi" "a@x.com" "pw" "111111"
      "Bob" "x" "pw2" "999999" 0 1).2 wSignedUp 300 rfl⟩

/-- C8: `login` never consults the verification flag: for a stored user
whose digest matches the supplied password, login returns the signed token
and the user summary even when `isVerified` is false. -/
theorem C8_login_ignores_isVerified (c : Crypto) (users : List (Nat × UserRec))
    (email password : String) (uid : Nat) (u : UserRec)
    (hfind : findUserByEmail users email = some (uid, u))
    (hpw : c.checkpw u.passwordHash password = true)
    (_hver : u.isVerified = false) :
    login c users email password = Except.ok ⟨c.sign u.email, mkUserOut uid u⟩ := by
  unfold login
  rw [hfind]
  simp [hpw]

/-- C8 witness: the unverified user `wUser` logs in successfully with the
matching password. -/
theorem C8_login_ignores_isVerified_witness :
    login cryptoId wUsers "a@x.com" "pw"
      = Except.ok ⟨cryptoId.sign wUser.email, mkUserOut 0 wUser⟩ :=
  C8_login_ignores_isVerified cryptoId wUsers "a@x.com" "pw" 0 wUser
    (by decide) (by decide) rfl

/-- C10: `add_comment` on an absent post id does not fail `NotFound`: the
`$push` update is a silent no-op, the re-fetch finds nothing, and the
response build hits the unguarded branch (modelled `none`, an unhandled
failure rather than a structured error). -/
theorem C10_add_comment_absent_post (posts : PostsStore)
    (post_id user_id user_name text : String) (now : Nat)
    (h : lookupKey posts post_id = none) :
    add_comment posts post_id user_id user_name text now = (posts, none) := by
  simp only [add_comment]
  rw [updateKey_of_lookup_none _ h, h]

/-- C10 witness: commenting on any id in the empty collection crashes
without a structured error. -/
theorem C10_add_comment_absent_post_witness :
    add_comment [] "p1" "1" "Alice" "hey" 0 = ([], none) :=
  C10_add_comment_absent_post [] "p1" "1" "Alice" "hey" 0 rfl

/-- C5: `like_post` is idempotent (two likes leave the collection in the
same state as one), liking an already-liked post is a no-op success,
unliking a never-liked post is a no-op success, and both operations fail
`NotFound` on an absent post without touching the collection. -/
theorem C5_like_unlike_idempotent (posts : PostsStore) (post_id user_id : String) :
    (like_post (like_post posts post_id user_id).1 post_id user_id).1
        = (like_post posts post_id user_id).1
  ∧ (∀ p, lookupKey posts post_id = some p → user_id ∈ p.likes →
        like_post posts post_id user_id = (posts, Except.ok "Already liked"))
  ∧ (∀ p, lookupKey posts post_id = some p → user_id ∉ p.likes →
        unlike_post posts post_id user_id = (posts, Except.ok "Post unliked"))
  ∧ (lookupKey posts post_id = none →
        like_post posts post_id user_id = (posts, Except.error HErr.notFound)
      ∧ unlike_post posts post_id user_id = (posts, Except.error HErr.notFound)) := by
  refine ⟨?_, ?_, ?_, ?_⟩
  · cases hl : lookupKey posts post_id with
    | none => simp [like_post, hl]
    | some p =>
      by_cases hm : user_id ∈ p.likes
      · simp [like_post, hl, hm]
      · have h1 : like_post posts post_id user_id
            = (updateKey posts post_id (addToSet user_id), Except.ok "Post liked") := by
          simp [like_post, hl, hm]
        have hl2 : lookupKey (updateKey posts post_id (addToSet user_id)) post_id
            = some (addToSet user_id p) := by
          rw [lookupKey_updateKey_self, hl]; rfl
        have hm2 : user_id ∈ (addToSet user_id p).likes := by
          simp [addToSet, hm]
        rw [h1]
        simp [like_post, hl2, hm2]
  · intro p hl hm
    simp [like_post, hl, hm]
  · intro p hl hm
    have hfilter : p.likes.filter (fun x => x ≠ user_id) = p.likes := by
      apply List.filter_eq_self.mpr
      intro a ha
      exact decide_eq_true (fun he : a = user_id => hm (he ▸ ha))
    have hfix : pullLike user_id p = p := by
      simp only [pullLike, hfilter]
    simp [unlike_post, hl, updateKey_eq_self hl hfix]
  · intro hl
    exact ⟨by simp [like_post, hl], by simp [unlike_post, hl]⟩

/-- C5 witness: on `wPosts` (post `p1`, liked by user `7`): double-like by
user `9` equals a single like,liking again by `7` and unliking by `9` are
no-op successes, and both operations 404 on the absent id `zz`. -/
theorem C5_like_unlike_idempotent_witness :
    (like_post (like_post wPosts "p1" "9").1 "p1" "9").1 = (like_post wPosts "p1" "9").1
  ∧ like_post wPosts "p1" "7" = (wPosts, Except.ok "Already liked")
  ∧ unlike_post wPosts "p1" "9" = (wPosts, Except.ok "Post unliked")
  ∧ (like_post wPosts "zz" "7" = (wPosts, Except.error HErr.notFound)
     ∧ unlike_post wPosts "zz" "7" = (wPosts, Except.error HErr.notFound)) :=
  ⟨(C5_like_unlike_idempotent wPosts "p1" "9").1,
   (C5_like_unlike_idempotent wPosts "p1" "7").2.1 wPost (by decide) (by decide),
   (C5_like_unlike_idempotent wPosts "p1" "9").2.2.1 wPost (by decide) (by decide),
   (C5_like_unlike_idempotent wPosts "zz" "7").2.2.2 (by decide)⟩

/-- C6: `delete_comment` fails `NotFound` when the post is absent or the
index is outside the current bounds of its comment list, fails `Forbidden`
when the caller is not the author of the comment at that index, and
otherwise removes exactly the comment at that position. -/
theorem C6_delete_comment_cases (posts : PostsStore) (post_id : String)
    (idx : Int) (user_id : String) :
    (lookupKey posts post_id = none →
        delete_comment posts post_id idx user_id = (posts, Except.error HErr.notFound))
  ∧ (∀ p, lookupKey posts post_id = some p →
        (idx < 0 ∨ (p.comments.length : Int) ≤ idx) →
        delete_comment posts post_id idx user_id = (posts, Except.error HErr.notFound))
  ∧ (∀ p, lookupKey posts post_id = some p → 0 ≤ idx → idx < (p.comments.length : Int) →
        (p.comments.getD idx.toNat default).user_id ≠ user_id →
        delete_comment posts post_id idx user_id = (posts, Except.error HErr.forbidden))
  ∧ (∀ p, lookupKey posts post_id = some p → 0 ≤ idx → idx < (p.comments.length : Int) →
        (p.comments.getD idx.toNat default).user_id = user_id →
        delete_comment posts post_id idx user_id
          = (updateKey posts post_id
              (fun q => { q with comments := p.comments.eraseIdx idx.toNat }),
             Except.ok "Comment deleted successfully")
        ∧ lookupKey (delete_comment posts post_id idx user_id).1 post_id
            = some { p with comments := p.comments.eraseIdx idx.toNat }) := by
  refine ⟨?_, ?_, ?_, ?_⟩
  · intro hl
    simp [delete_comment, hl]
  · intro p hl hb
    simp [delete_comment, hl, hb]
  · intro p hl h0 hlen hau
    have hb : ¬ (idx < 0 ∨ (p.comments.length : Int) ≤ idx) := by omega
    rw [List.getD_eq_getElem?_getD] at hau
    simp [delete_comment, hl, hb, hau]
  · intro p hl h0 hlen hau
    have hb : ¬ (idx < 0 ∨ (p.comments.length : Int) ≤ idx) := by omega
    rw [List.getD_eq_getElem?_getD] at hau
    have hstep : delete_comment posts post_id idx user_id
        = (updateKey posts post_id
            (fun q => { q with comments := p.comments.eraseIdx idx.toNat }),
           Except.ok "Comment deleted successfully") := by
      simp [delete_comment, hl, hb, hau]
    refine ⟨hstep, ?_⟩
    rw [hstep]
    rw [lookupKey_updateKey_self, hl]
    rfl

/-- C6 witness: on `wPosts` (post `p1` with comments by users `1` then
`2`): absent id 404s, index 5 404s, user `2` cannot delete user `1`'s
comment, and user `2` deletes its own comment at index 1 leaving only the
first comment. -/
theorem C6_delete_comment_cases_witness :
    delete_comment wPosts "zz" 0 "1" = (wPosts, Except.error HErr.notFound)
  ∧ delete_comment wPosts "p1" 5 "1" = (wPosts, Except.error HErr.notFound)
  ∧ delete_comment wPosts "p1" 0 "2" = (wPosts, Except.error HErr.forbidden)
  ∧ (delete_comment wPosts "p1" 1 "2"
      = (updateKey wPosts "p1"
          (fun q => { q with comments := wPost.comments.eraseIdx (1 : Int).toNat }),
         Except.ok "Comment deleted successfully")
     ∧ lookupKey (delete_comment wPosts "p1" 1 "2").1 "p1"
        = some { wPost with comments := wPost.comments.eraseIdx (1 : Int).toNat }) :=
  ⟨(C6_delete_comment_cases wPosts "zz" 0 "1").1 (by decide),
   (C6_delete_comment_cases wPosts "p1" 5 "1").2.1 wPost (by decide) (by decide),
   (C6_delete_comment_cases wPosts "p1" 0 "2").2.2.1 wPost (by decide) (by decide)
     (by decide) (by decide),
   (C6_delete_comment_cases wPosts "p1" 1 "2").2.2.2 wPost (by decide) (by decide)
     (by decide) (by decide)⟩

/-- C7: `update_profile` is a partial update: an unsupported content type
is rejected with `ValidationError` before any network call; unsupplied
fields (and the email, password digest and verification flag, and every
other user) are left unchanged; and a supplied non-empty name is applied
on the image-free path. -/
theorem C7_update_profile_frame (users : List (Nat × UserRec)) (uid : Nat)
    (u : UserRec) (name bio : Option String) (file : Option FileUpload)
    (upload : Except Unit (Option String))
    (hu : lookupKey users uid = some u) :
    (∀ f, file = some f → f.content_type ≠ "image/jpeg" → f.content_type ≠ "image/png" →
        update_profile users uid name bio file upload
          = (users, some (Except.error HErr.validationError), false))
  ∧ (∀ u2, lookupKey (update_profile users uid name bio file upload).1 uid = some u2 →
        u2.email = u.email ∧ u2.passwordHash = u.passwordHash
      ∧ u2.isVerified = u.isVerified
      ∧ (name = none → u2.name = u.name)
      ∧ (bio = none → u2.bio = u.bio)
      ∧ (file = none → u2.profilePic = u.profilePic))
  ∧ (∀ k, k ≠ uid → lookupKey (update_profile users uid name bio file upload).1 k
        = lookupKey users k)
  ∧ (∀ nv, name = some nv → nv ≠ "" → file = none →
        lookupKey (update_profile users uid name bio file upload).1 uid
          = some (applyUpdate u ⟨some nv, if truthy bio then bio else none, none⟩)) := by
  obtain ⟨d, hshape, hdn, hdb, hdp⟩ := update_profile_users_shape users uid name bio file upload
  refine ⟨?_, ?_, ?_, ?_⟩
  · intro f hf h1 h2
    subst hf
    simp [update_profile, h1, h2]
  · intro u2 hu2
    rcases hshape with hsame | hupd
    · rw [hsame, hu] at hu2
      injection hu2 with hu2
      subst hu2
      exact ⟨rfl, rfl, rfl, fun _ => rfl, fun _ => rfl, fun _ => rfl⟩
    · rw [hupd, lookupKey_updateKey_self, hu, Option.map_some'] at hu2
      injection hu2 with hu2
      subst hu2
      refine ⟨rfl, rfl, rfl, ?_, ?_, ?_⟩
      · intro hn; simp [applyUpdate, hdn hn]
      · intro hb; simp [applyUpdate, hdb hb]
      · intro hf; simp [applyUpdate, hdp hf]
  · intro k hk
    rcases hshape with hsame | hupd
    · rw [hsame]
    · rw [hupd, lookupKey_updateKey_ne _ _ hk]
  · intro nv hnv hne hfile
    subst hnv; subst hfile
    have htr : truthy (some nv) = true := by simpa [truthy] using hne
    have hfst : (update_profile users uid (some nv) bio none upload).1
        = (finishProfileUpdate users uid
            ⟨some nv, if truthy bio then bio else none, none⟩ false).1 := by
      simp [update_profile, htr]
    rw [hfst, finishProfileUpdate_fst]
    have hupdts : hasUpdates ⟨some nv, if truthy bio then bio else none, none⟩ = true := by
      simp [hasUpdates]
    rw [if_pos hupdts, lookupKey_updateKey_self, hu]
    rfl

/-- C7 witness: with the single stored user: a GIF upload is rejected
before any network call; after a name-only update the email, digest,
verification flag, bio and picture are unchanged while the name is
applied, and the absent key 5 still resolves the same. -/
theorem C7_update_profile_frame_witness :
    update_profile wUsers 0 none none (some ⟨"a.gif", "image/gif"⟩) (Except.ok none)
      = (wUsers, some (Except.error HErr.validationError), false)
  ∧ ((⟨"Zed", "hi", "a@x.com", "pw", none, false⟩ : UserRec).email = wUser.email
     ∧ (⟨"Zed", "hi", "a@x.com", "pw", none, false⟩ : UserRec).passwordHash
        = wUser.passwordHash
     ∧ (⟨"Zed", "hi", "a@x.com", "pw", none, false⟩ : UserRec).isVerified
        = wUser.isVerified
     ∧ ((some "Zed" : Option String) = none
        → (⟨"Zed", "hi", "a@x.com", "pw", none, false⟩ : UserRec).name = wUser.name)
     ∧ (none = (none : Option String)
        → (⟨"Zed", "hi", "a@x.com", "pw", none, false⟩ : UserRec).bio = wUser.bio)
     ∧ ((none : Option FileUpload) = none
        → (⟨"Zed", "hi", "a@x.com", "pw", none, false⟩ : UserRec).profilePic
            = wUser.profilePic))
  ∧ lookupKey (update_profile wUsers 0 (some "Zed") none none (Except.ok none)).1 5
      = lookupKey wUsers 5
  ∧ lookupKey (update_profile wUsers 0 (some "Zed") none none (Except.ok none)).1 0
      = some (applyUpdate wUser ⟨some "Zed", if truthy none then none else none, none⟩) :=
  ⟨(C7_update_profile_frame wUsers 0 wUser none none
      (some ⟨"a.gif", "image/gif"⟩) (Except.ok none) (by decide)).1
      ⟨"a.gif", "image/gif"⟩ rfl (by decide) (by decide),
   (C7_update_profile_frame wUsers 0 wUser (some "Zed") none none
      (Except.ok none) (by decide)).2.1 ⟨"Zed", "hi", "a@x.com", "pw", none, false⟩
      (by decide),
   (C7_update_profile_frame wUsers 0 wUser (some "Zed") none none
      (Except.ok none) (by decide)).2.2.1 5 (by decide),
   (C7_update_profile_frame wUsers 0 wUser (some "Zed") none none
      (Except.ok none) (by decide)).2.2.2 "Zed" rfl (by decide) rfl⟩

/-- C1: the deferred reaper of the first signup, firing late, removes the
pending entry for its email even though the key by then maps to a
different registration instance installed by a later signup — the code
checks only key presence (auth.py:60), contradicting the spec's
requirement that a superseded entry must never be removed.  The trace:
signup at time 0 (OTP 111111, expiry 300); verify at 301 reports Expired
and removes the entry; a second signup at 302 installs a fresh entry
(OTP 222222, expiry 602); the first signup's reaper then fires and
deletes it. -/
theorem C1_reaper_removes_superseded_entry :
    (verify_email c1S1 "a@x.com" "111111" 301).2 = Except.error HErr.expired
  ∧ lookupKey c1S1.otp_store "a@x.com" = some c1Rec1
  ∧ lookupKey c1S3.otp_store "a@x.com" = some c1Rec2
  ∧ c1Rec2 ≠ c1Rec1
  ∧ remove_otp_after_expiry c1S3.otp_store "a@x.com" = [] := by
  refine ⟨rfl, by decide, by decide, by decide, by decide⟩

theorem step_preserves_InvS (c : Crypto) (s : SystemState) (e : Event)
    (h : InvS s) : InvS (step c s e) := by
  obtain ⟨hu, ho⟩ := h
  cases e with
  | signupEv name bio email password otp now =>
    by_cases hc : ((findUserByEmail s.auth.users email).isSome
        || (lookupKey s.auth.otp_store email).isSome) = true
    · have hfst : (signup c s.auth name bio email password otp now).1 = s.auth := by
        simp [signup, hc]
      simp only [step, hfst]
      exact ⟨hu, ho⟩
    · rw [Bool.not_eq_true] at hc
      have hfst : (signup c s.auth name bio email password otp now).1 = { s.auth with otp_store := insertKey s.auth.otp_store email ⟨otp, now + OTP_EXPIRY_SECONDS, ⟨name, bio, email, c.hashpw password, none, false⟩⟩ } := by
        simp [signup, hc]
      simp only [step, hfst]
      refine ⟨hu, ?_⟩
      intro p hp
      simp only [insertKey, List.mem_cons] at hp
      rcases hp with hp | hp
      · subst hp; rfl
      · exact ho p (mem_eraseKey hp)
  | verifyEv email otp now =>
    cases hl : lookupKey s.auth.otp_store email with
    | none =>
      have hfst : (verify_email s.auth email otp now).1 = s.auth := by
        simp [verify_email, hl]
      simp only [step, hfst]
      exact ⟨hu, ho⟩
    | some r =>
      by_cases hotp : r.otp ≠ otp
      · have hfst : (verify_email s.auth email otp now).1 = s.auth := by
          simp [verify_email, hl, hotp]
        simp only [step, hfst]
        exact ⟨hu, ho⟩
      · by_cases hexp : r.expiry < now
        · have hfst : (verify_email s.auth email otp now).1
              = { s.auth with otp_store := eraseKey s.auth.otp_store email } := by
            simp [verify_email, hl, hotp, hexp]
          simp only [step, hfst]
          exact ⟨hu, fun p hp => ho p (mem_eraseKey hp)⟩
        · have hfst : (verify_email s.auth email otp now).1
              = { users := s.auth.users ++ [(s.auth.nextId, r.userData)],
                  nextId := s.auth.nextId + 1,
                  otp_store := eraseKey s.auth.otp_store email } := by
            simp [verify_email, hl, hotp, hexp]
          simp only [step, hfst]
          refine ⟨?_, fun p hp => ho p (mem_eraseKey hp)⟩
          intro p hp
          rcases List.mem_append.mp hp with hp | hp
          · exact hu p hp
          · have hp2 : p = (s.auth.nextId, r.userData) := by simpa using hp
            subst hp2
            exact ho (email, r) (lookupKey_mem hl)
  | reapEv email =>
    simp only [step, remove_otp_after_expiry]
    by_cases hc : (lookupKey s.auth.otp_store email).isSome
    · rw [if_pos hc]
      exact ⟨hu, fun p hp => ho p (mem_eraseKey hp)⟩
    · rw [if_neg hc]
      exact ⟨hu, ho⟩
  | loginEv email password =>
    exact ⟨hu, ho⟩
  | profileEv uid name bio file upload =>
    obtain ⟨d, hshape, _, _, _⟩ :=
      update_profile_users_shape s.auth.users uid name bio file upload
    rcases hshape with hsame | hupd
    · simp only [step, hsame]
      exact ⟨hu, ho⟩
    · simp only [step, hupd]
      refine ⟨?_, ho⟩
      show ∀ p ∈ updateKey s.auth.users uid (fun v => applyUpdate v d),
        p.2.isVerified = false
      refine mem_updateKey_of_pred hu ?_
      intro a v hv
      exact hv
  | removePicEv uid =>
    simp only [step, remove_profile_pic_fst]
    refine ⟨?_, ho⟩
    show ∀ p ∈ updateKey s.auth.users uid (fun u => { u with profilePic := none }),
      p.2.isVerified = false
    refine mem_updateKey_of_pred hu ?_
    intro a v hv
    exact hv
  | createPostEv pid uid content image now =>
    simp only [step]
    cases lookupKey s.auth.users uid with
    | none => exact ⟨hu, ho⟩
    | some u => exact ⟨hu, ho⟩
  | likeEv pid uid => exact ⟨hu, ho⟩
  | unlikeEv pid uid => exact ⟨hu, ho⟩
  | addCommentEv pid uid text now =>
    simp only [step]
    cases lookupKey s.auth.users uid with
    | none => exact ⟨hu, ho⟩
    | some u => exact ⟨hu, ho⟩
  | deleteCommentEv pid idx uid => exact ⟨hu, ho⟩
  | deletePostEv pid uid => exact ⟨hu, ho⟩

theorem InvS_run (c : Crypto) (es : List Event) :
    ∀ s : SystemState, InvS s → InvS (run c s es) := by
  induction es with
  | nil => intro s h; exact h
  | cons e es ih =>
    intro s h
    exact ih (step c s e) (step_preserves_InvS c s e h)

/-- C9: along every trace of operations from a fresh process, every user
committed to the credential store carries `isVerified = false`: signup
drafts it false, verify-email inserts the draft unchanged, and no
operation ever sets it true. -/
theorem C9_committed_users_never_verified (c : Crypto) (es : List Event) :
    allUnverified (run c initState es) = true := by
  have h := InvS_run c es initState
    ⟨(fun p hp => nomatch hp), (fun p hp => nomatch hp)⟩
  simp only [allUnverified, List.all_eq_true]
  intro p hp
  simp [h.1 p hp]

end StudentHub
